import Mathlib

/-!
Verification of the shadow-writing chunk-processing core.

This file shallowly embeds the parts of the repository's backend that the
claims talk about:

* the per-chunk parallel pipeline
  (`app/agents/parallel/{shadow_writing,validation,quality,correction,finalize}_agent.py`
  wired by `create_chunk_pipeline` in `app/workflows.py`),
* the task store (`app/db/task_db.py`),
* the semantic chunker (`app/agents/shared/semantic_chunking.py`),
* the SSE manager and progress stream
  (`app/sse_manager.py`, `progress_stream.generate` in `app/main.py`),
* the API-key manager and monitor
  (`app/infrastructure/config/api_key_manager.py`,
  `app/monitoring/api_key_monitor.py`, `app/monitoring/api_key_stats.py`).

Python floats are modelled as exact rationals (`ℚ`); machine rounding plays no
role in any of the statements proved here.  LLM calls are modelled as oracle
inputs (`Option` of a result record; `none` is a failed / non-dict response).
-/

/-! ## Python string primitives

These are written directly over the character list (`String.data`) with
structural recursion, so that every statement below can be evaluated on
concrete inputs by the kernel. -/

/-- Helper of `pyWords`: scan the characters, `cur` holding the reversed
current word. -/
def pyWordsAux (cur : List Char) : List Char → List String
  | [] => if cur.isEmpty then [] else [String.mk cur.reverse]
  | c :: rest =>
    if c.isWhitespace then
      if cur.isEmpty then pyWordsAux [] rest
      else String.mk cur.reverse :: pyWordsAux [] rest
    else pyWordsAux (c :: cur) rest

/-- Python `str.split()` with no argument: split on whitespace runs, dropping
empty pieces. -/
def pyWords (s : String) : List String := pyWordsAux [] s.data

/-- Number of whitespace-separated words, as in `len(v.split())`. -/
def wordCount (s : String) : Nat := (pyWords s).length

/-- Python `str.strip()` on a character list: drop whitespace from both
ends. -/
def trimChars (l : List Char) : List Char :=
  ((l.dropWhile Char.isWhitespace).reverse.dropWhile Char.isWhitespace).reverse

/-- Python `str.strip()`. -/
def pyStrip (s : String) : String := String.mk (trimChars s.data)

/-- Python `str.lower()` (ASCII range, which covers every string compared
below). -/
def pyLower (s : String) : String := String.mk (s.data.map Char.toLower)

/-- Substring occurrence on character lists (Python `pat in s`). -/
def containsSeq (pat : List Char) : List Char → Bool
  | [] => pat.isEmpty
  | c :: rest => pat.isPrefixOf (c :: rest) || containsSeq pat rest

/-- Python substring test `pat in s`. -/
def containsKW (s pat : String) : Bool := containsSeq pat.data s.data

/-- Lexicographic comparison of character lists by code point — the order
Python uses to compare strings. -/
def charListLt : List Char → List Char → Bool
  | [], [] => false
  | [], _ :: _ => true
  | _ :: _, [] => false
  | a :: as, b :: bs =>
    if a < b then true else if b < a then false else charListLt as bs

/-- Python string comparison `a < b`. -/
def pyStrLt (a b : String) : Bool := charListLt a.data b.data

/-! ## A small model of Python/JSON values

The LLM returns arbitrary JSON; the code only ever inspects truthiness,
`isinstance(_, dict)`, `isinstance(_, list)` and lengths, one level deep
inside the `map` field, so this value type carries exactly that structure. -/

inductive PyVal where
  | vNone : PyVal
  | vBool (b : Bool) : PyVal
  | vInt (n : Int) : PyVal
  | vStr (s : String) : PyVal
  | vList (xs : List PyVal) : PyVal
  | vDict (kvs : List (String × PyVal)) : PyVal

/-- Python truthiness of a value. -/
def PyVal.truthy : PyVal → Bool
  | .vNone => false
  | .vBool b => b
  | .vInt n => n ≠ 0
  | .vStr s => s ≠ ""
  | .vList xs => !xs.isEmpty
  | .vDict kvs => !kvs.isEmpty

/-- `isinstance(v, dict)`. -/
def PyVal.isDict : PyVal → Bool
  | .vDict _ => true
  | _ => false

/-- `len(v)` for a dict value (0 otherwise; only used on dicts). -/
def PyVal.dictLen : PyVal → Nat
  | .vDict kvs => kvs.length
  | _ => 0

/-- The key/value entries of a dict value. -/
def PyVal.entries : PyVal → List (String × PyVal)
  | .vDict kvs => kvs
  | _ => []

/-- `isinstance(v, list)`. -/
def PyVal.isList : PyVal → Bool
  | .vList _ => true
  | _ => false

/-- `len(v)` for a list value (0 otherwise; only used on lists). -/
def PyVal.listLen : PyVal → Nat
  | .vList xs => xs.length
  | _ => 0

/-! ## Data model: raw shadow dicts and `Ted_Shadows` (app/models.py) -/

/-- The standardized `raw_shadow` dict built by `shadow_writing_single_chunk`
(`shadow_writing_agent.py` lines 228-233): string `original`/`imitation`
(already passed through `str(...).strip()`), an arbitrary JSON `map`, and the
chunk text as `paragraph`. -/
structure RawShadow where
  original : String
  imitation : String
  map : PyVal
  paragraph : String

/-- `Ted_Shadows` (app/models.py lines 17-51).  The pydantic validators live in
`tedShadowsMk`; a constructed value stores the stripped sentences. -/
structure TedShadows where
  original : String
  imitation : String
  map : List (String × PyVal)
  paragraph : String
  quality_score : ℚ

/-- The `validate_map` check of `Ted_Shadows` (models.py lines 41-51):
`map` is a dict with at least 2 entries, every value a list with at least one
element. -/
def validMapStrict (m : PyVal) : Bool :=
  m.isDict && 2 ≤ m.dictLen &&
    m.entries.all (fun kv => kv.2.isList && 1 ≤ kv.2.listLen)

/-- Constructing `Ted_Shadows(original=o, imitation=i, map=m, paragraph=p,
quality_score=q)`: pydantic runs the `min_length` constraints and the field
validators (models.py lines 19-51); any failure raises, which the callers turn
into `none`. -/
def tedShadowsMk (o i : String) (m : PyVal) (p : String) (q : ℚ) :
    Option TedShadows :=
  if 12 ≤ o.length && 8 ≤ wordCount o &&
     12 ≤ i.length && 8 ≤ wordCount i &&
     validMapStrict m &&
     10 ≤ p.length &&
     decide (0 ≤ q) && decide (q ≤ 8) then
    some { original := pyStrip o, imitation := pyStrip i, map := m.entries,
           paragraph := p, quality_score := q }
  else none

/-! ## Task store (app/db/task_db.py) -/

/-- The chunk-progress formula `_calculate_progress_from_chunks`
(task_db.py lines 151-165): `20 + int(completed/total * 60)`, or 0 when
`total <= 0`.  (CPython evaluates the ratio in binary floating point; for the
integer counters involved here the truncated value is the rational floor.) -/
def calcProgressFromChunks (total completed : Nat) : Nat :=
  if total = 0 then 0 else 20 + completed * 60 / total

/-- A row of `processing_tasks` restricted to the fields the claims mention. -/
structure TaskRec where
  status : String
  total_chunks : Nat
  completed_chunks : Nat
  progress : Nat
deriving DecidableEq

/-- `TaskDB.update_chunks_info` (task_db.py lines 106-116): store the chunk
total, reset the completed counter and enter the shadow-writing stage. -/
def update_chunks_info (t : TaskRec) (total : Nat) : TaskRec :=
  { t with status := "shadow_writing", total_chunks := total,
           completed_chunks := 0,
           progress := calcProgressFromChunks total 0 }

/-- `TaskDB.increment_completed_chunk` (task_db.py lines 118-149):
unconditional `SET completed_chunks = completed_chunks + 1` plus the derived
progress; there is no upper-bound check against `total_chunks`. -/
def increment_completed_chunk (t : TaskRec) : TaskRec :=
  { t with completed_chunks := t.completed_chunks + 1,
           progress :=
             calcProgressFromChunks t.total_chunks (t.completed_chunks + 1) }

/-! ## The parallel chunk pipeline (app/agents/parallel, app/workflows.py) -/

/-- A shadow-writing LLM response after JSON parsing: the `original`,
`imitation` and `map` values of the returned dict.  `none` models a failed
call, an exception, or a non-dict response. -/
structure ShadowLLMResult where
  original : String
  imitation : String
  map : PyVal

/-- A quality-evaluation LLM response (the JSON dict requested by
`quality_single_chunk`); `none` models failure / non-dict. -/
structure QualityLLMResult where
  total_score : ℚ
  step3_logic : Int
  step3_issues : List String
  pass : Bool
  step1_grammar : Int
  step2_content : Int
  step4_topic : Int
  step5_learning : Int

/-- The LLM responses consumed by one chunk pipeline. -/
structure ChunkOracle where
  shadow : Option ShadowLLMResult
  quality : Option QualityLLMResult

/-- `shadow_writing_single_chunk` (shadow_writing_agent.py lines 7-254),
restricted to its observable effects: on an empty chunk or a failed LLM call it
produces no `raw_shadow`; on success it standardizes the result (stripping the
sentences, attaching the chunk text as `paragraph`) and — when a task id is
present and `total_chunks > 0` — increments the task's completed-chunk counter
(lines 236-242). -/
def shadow_writing_single_chunk (chunkText : String) (taskId : Option String)
    (totalChunks : Nat) (llm : Option ShadowLLMResult) (db : TaskRec) :
    Option RawShadow × TaskRec :=
  if chunkText = "" then (none, db)
  else
    match llm with
    | none => (none, db)
    | some r =>
      let std : RawShadow :=
        { original := pyStrip r.original, imitation := pyStrip r.imitation,
          map := r.map, paragraph := chunkText }
      let db' := if taskId.isSome && decide (0 < totalChunks) then
          increment_completed_chunk db
        else db
      (some std, db')

/-- `validation_single_chunk` (validation_agent.py lines 8-36): requires the
three fields to be truthy, then builds a `Ted_Shadows` with the constant
`quality_score=6.0`; any pydantic error yields `none`. -/
def validation_single_chunk (rawShadow : Option RawShadow) :
    Option TedShadows :=
  match rawShadow with
  | none => none
  | some r =>
    if (r.original ≠ "" : Bool) && (r.imitation ≠ "" : Bool) && r.map.truthy
    then tedShadowsMk r.original r.imitation r.map r.paragraph 6
    else none

/-- The state fields written by the quality stage. -/
structure QualityOutput where
  quality_passed : Bool
  quality_score : ℚ
  logic_veto : Bool

/-- `quality_single_chunk` (quality_agent.py lines 7-296): with a validated
artifact and an LLM verdict, the chunk passes iff `total_score >= 9.0` AND the
LLM's `pass` field is true (line 232), overridden to a hard fail when
`step3_logic < 2` (lines 234-239). -/
def quality_single_chunk (validated : Option TedShadows)
    (llm : Option QualityLLMResult) : QualityOutput :=
  match validated with
  | none => { quality_passed := false, quality_score := 0, logic_veto := false }
  | some _ =>
    match llm with
    | none =>
      { quality_passed := false, quality_score := 0, logic_veto := false }
    | some r =>
      let isValid0 := decide (9 ≤ r.total_score) && r.pass
      let veto := decide (r.step3_logic < 2)
      let isValid := if r.step3_logic < 2 then false else isValid0
      { quality_passed := isValid, quality_score := r.total_score,
        logic_veto := if isValid then false else veto }

/-- `correction_single_chunk` (correction_agent.py lines 7-26): the current
parallel variant is a stub — it returns the validated artifact unchanged,
making no LLM call and applying no acceptance check (its own comment reads
"TODO: implement the full correction logic"). -/
def correction_single_chunk (validated : Option TedShadows) :
    Option TedShadows :=
  match validated with
  | none => none
  | some v => some v

/-- The acceptance test of the serial `correction_agent`
(app/agents/serial/correction.py lines 128-132): the improved imitation is
truthy with at least 8 words and the improved map is a dict with at least 2
entries. -/
def correction_accepts (imitation : String) (m : PyVal) : Bool :=
  (imitation ≠ "" : Bool) && 8 ≤ wordCount imitation &&
    m.isDict && 2 ≤ m.dictLen

/-- An improved-migration LLM response for the serial correction agent. -/
structure CorrectionLLMResult where
  original : String
  imitation : String
  map : PyVal

/-- One iteration of the serial `correction_agent` loop
(serial/correction.py lines 115-141): a single LLM call per failed chunk; the
returned artifact is kept iff `correction_accepts` holds of the stripped
imitation and the map; there is no re-scoring. -/
def correction_agent_single (_origFallback paragraph : String)
    (llm : Option CorrectionLLMResult) : Option RawShadow :=
  match llm with
  | none => none
  | some r =>
    let d : RawShadow :=
      { original := pyStrip r.original, imitation := pyStrip r.imitation,
        map := r.map, paragraph := paragraph }
    if correction_accepts d.imitation d.map then some d else none

/-- Modelled from the spec: `get_current_task_info` is imported by
`finalize_single_chunk` from `app.workflows` but its definition is not in the
source tree (only this caller is).  Per the spec's control flow (§2, §4.5) each
chunk pipeline runs on behalf of one current task, so the helper returns that
run's task id and chunk total. -/
def get_current_task_info (taskId : Option String) (totalChunks : Nat) :
    Option String × Nat :=
  (taskId, totalChunks)

/-- `finalize_single_chunk` (finalize_agent.py lines 9-68): takes the corrected
artifact if present, else the validated one; on success it increments the
task's completed-chunk counter again (lines 26-33) and returns the artifact as
the chunk's contribution to `final_shadow_chunks`; otherwise it contributes
nothing. -/
def finalize_single_chunk (corrected validated : Option TedShadows)
    (taskId : Option String) (totalChunks : Nat) (db : TaskRec) :
    List TedShadows × TaskRec :=
  match corrected.orElse (fun _ => validated) with
  | some finalResult =>
    match (get_current_task_info taskId totalChunks).1 with
    | some _ => ([finalResult], increment_completed_chunk db)
    | none => ([finalResult], db)
  | none => ([], db)

/-- The observable outcome of one chunk pipeline run. -/
structure PipelineResult where
  final_chunks : List TedShadows
  db : TaskRec
  quality_passed : Bool
  corrected_used : Bool

/-- `create_chunk_pipeline` (workflows.py lines 182-236): shadow_writing →
validation → quality → (`should_correct`, lines 211-216: correction when
`quality_passed` is false) → finalize_chunk, with the task-store effects
threaded through. -/
def runChunkPipeline (chunkText : String) (taskId : Option String)
    (totalChunks : Nat) (oracle : ChunkOracle) (db : TaskRec) :
    PipelineResult :=
  let sres := shadow_writing_single_chunk chunkText taskId totalChunks
    oracle.shadow db
  let validated := validation_single_chunk sres.1
  let q := quality_single_chunk validated oracle.quality
  if q.quality_passed then
    let fres := finalize_single_chunk none validated taskId totalChunks sres.2
    { final_chunks := fres.1, db := fres.2, quality_passed := true,
      corrected_used := false }
  else
    let corrected := correction_single_chunk validated
    let fres := finalize_single_chunk corrected validated taskId totalChunks
      sres.2
    { final_chunks := fres.1, db := fres.2, quality_passed := false,
      corrected_used := true }

/-! ## SSE manager and progress stream (app/sse_manager.py, app/main.py) -/

/-- An event on a task's SSE queue, restricted to the fields the stream logic
inspects. -/
structure SSEMessage where
  id : String
  type : String
deriving DecidableEq

/-- `SSEManager.get_messages` (sse_manager.py lines 55-79): with a truthy
`last_event_id` (a nonempty string) return the cached messages whose id is
strictly greater (Python string comparison); otherwise return the whole
queue. -/
def get_messages (queue : List SSEMessage) (lastEventId : String) :
    List SSEMessage :=
  if lastEventId = "" then queue
  else queue.filter (fun m => pyStrLt lastEventId m.id)

/-- The polling loop of `progress_stream.generate` (main.py lines 614-652).
Each element of `polls` is the task queue as seen by one
`get_latest_message` call; the loop sends the latest message when its id
differs from the last id sent, and breaks right after sending a message of
type `completed` (line 636). -/
def liveLoop : String → List (List SSEMessage) → List SSEMessage
  | _, [] => []
  | lastSent, q :: polls =>
    match q.getLast? with
    | none => liveLoop lastSent polls
    | some m =>
      if m.id = lastSent then liveLoop lastSent polls
      else if m.type = "completed" then [m]
      else m :: liveLoop m.id polls

/-- `progress_stream.generate` (main.py lines 563-652) without the synthetic
unstored `connected` message: drain the cache via `get_messages`, seed
`last_sent_id` (line 608: the last cached id, else `last_event_id or "0"`),
then run the polling loop over the given schedule of queue snapshots. -/
def progressStream (q0 : List SSEMessage) (lastEventId : String)
    (polls : List (List SSEMessage)) : List SSEMessage :=
  let cached := get_messages q0 lastEventId
  let lastSent :=
    match cached.getLast? with
    | some m => m.id
    | none => if lastEventId = "" then "0" else lastEventId
  cached ++ liveLoop lastSent polls

/-- A poll schedule in which exactly one new event is published between
consecutive polls: starting from queue `q`, the i-th poll sees `q` extended by
the first `i+1` elements of `news`. -/
def pollsOneByOne (q : List SSEMessage) : List SSEMessage →
    List (List SSEMessage)
  | [] => []
  | n :: rest => (q ++ [n]) :: pollsOneByOne (q ++ [n]) rest

/-! ## Semantic chunker (app/agents/shared/semantic_chunking.py) -/

/-- A sentence terminator of the `re.split` pattern `[.!?]+\s+`. -/
def isSentenceTerm (c : Char) : Bool := c = '.' || c = '!' || c = '?'

/-- Scanner equivalent of `re.split(r'[.!?]+\s+', text)` on the character
list: a maximal run of terminators followed by at least one whitespace
character is a separator (the whitespace run is consumed greedily); a
terminator run not followed by whitespace stays inside the current piece.
Recursion is structural on a fuel argument (each step consumes at least one
character, so fuel equal to the input length suffices) to keep the function
kernel-evaluable. -/
def splitSentencesFuel : Nat → List Char → List Char → List (List Char)
  | _, acc, [] => [acc.reverse]
  | 0, acc, rest => [acc.reverse ++ rest]
  | fuel + 1, acc, c :: rest =>
    if isSentenceTerm c then
      match rest.dropWhile isSentenceTerm with
      | [] => [acc.reverse ++ c :: rest.takeWhile isSentenceTerm]
      | d :: rest2 =>
        if d.isWhitespace then
          acc.reverse ::
            splitSentencesFuel fuel [] (rest2.dropWhile Char.isWhitespace)
        else
          splitSentencesFuel fuel
            (d :: ((rest.takeWhile isSentenceTerm).reverse ++ c :: acc)) rest2
    else splitSentencesFuel fuel (c :: acc) rest

/-- `re.split(r'[.!?]+\s+', text)` as used by `split_into_chunks`
(semantic_chunking.py line 20). -/
def splitSentences (text : String) : List String :=
  (splitSentencesFuel text.data.length [] text.data).map (fun l => String.mk l)

/-- One iteration of the packing loop of `split_into_chunks`
(semantic_chunking.py lines 24-38), with `min=150` and `max=250`
(lines 10-12): the state is the current chunk and the chunks flushed so
far. -/
def chunkStep (st : String × List String) (sentence0 : String) :
    String × List String :=
  let sentence := pyStrip sentence0
  if sentence = "" then st
  else if st.1.length + sentence.length > 250 && (st.1 ≠ "" : Bool) then
    if 150 ≤ st.1.length then (sentence, st.2 ++ [pyStrip st.1])
    else (st.1 ++ " " ++ sentence, st.2)
  else if st.1 = "" then (sentence, st.2)
  else (st.1 ++ " " ++ sentence, st.2)

/-- `Semantic_Chunking_Agent.split_into_chunks` (semantic_chunking.py lines
14-44): text no longer than `max=250` characters is a single chunk; otherwise
sentences are packed by `chunkStep` and a nonempty trailing chunk is
flushed. -/
def split_into_chunks (text : String) : List String :=
  if text.length ≤ 250 then [text]
  else
    let res := (splitSentences text).foldl chunkStep ("", [])
    if pyStrip res.1 ≠ "" then res.2 ++ [pyStrip res.1] else res.2

/-- `Semantic_Chunking_Agent.__call__` (semantic_chunking.py lines 59-88):
falsy (empty) text yields `semantic_chunks = []`, otherwise the chunk list of
`split_into_chunks` (via `process_transcript`). -/
def semantic_chunking_node (text : String) : List String :=
  if text = "" then [] else split_into_chunks text

/-- The `Send` payload built per chunk by `continue_to_pipelines`
(workflows.py lines 267-316). -/
structure ChunkSend where
  chunk_text : String
  chunk_id : Nat
  task_id : Option String
  total_chunks : Nat
deriving DecidableEq

/-- `continue_to_pipelines` (workflows.py lines 293-316): one `Send` per
semantic chunk, with `chunk_id = i` assigned by `enumerate` in source
order and `total_chunks` the number of chunks. -/
def continue_to_pipelines (semanticChunks : List String)
    (taskId : Option String) : List ChunkSend :=
  semanticChunks.enum.map (fun p =>
    { chunk_text := p.2, chunk_id := p.1, task_id := taskId,
      total_chunks := semanticChunks.length })

/-! ## API-key manager (app/infrastructure/config/api_key_manager.py) -/

/-- `APIKeyStatus` (api_key_manager.py lines 10-17); `cooldown_until` is a
Unix timestamp, modelled as an exact rational. -/
structure KeyStatus where
  failure_count : Nat
  cooldown_until : ℚ
  total_calls : Nat
deriving DecidableEq

/-- `_get_status_by_key` (lines 136-141): first status record whose key
matches. -/
def lookupStatus : List (String × KeyStatus) → String → Option KeyStatus
  | [], _ => none
  | p :: rest, k => if p.1 = k then some p.2 else lookupStatus rest k

/-- Mutating the first status record whose key matches (the Python code
mutates the object found by `_get_status_by_key` in place). -/
def updateStatus (f : KeyStatus → KeyStatus) :
    List (String × KeyStatus) → String → List (String × KeyStatus)
  | [], _ => []
  | p :: rest, k =>
    if p.1 = k then (p.1, f p.2) :: rest else p :: updateStatus f rest k

/-- `APIKeyManager` state: the key deque (head first) and the status records,
keyed by the key string (the Python dict is keyed by `key_id`, but every
access goes through `_get_status_by_key`, which resolves by key value). -/
structure KeyManager where
  keys : List String
  status : List (String × KeyStatus)
  total_switches : Nat
deriving DecidableEq

/-- `deque.rotate(-1)`: move the head key to the tail (no-op when empty). -/
def rotKeys : List String → List String
  | [] => []
  | k :: rest => rest ++ [k]

/-- `APIKeyManager.rotate_key` (lines 90-95): rotate and count the switch. -/
def rotate_key (m : KeyManager) : KeyManager :=
  { m with keys := rotKeys m.keys, total_switches := m.total_switches + 1 }

/-- The scanning loop of `get_key` (lines 68-80): at most `len(keys)`
iterations; a key whose status exists and whose cooldown has passed is
returned (with `total_calls` bumped), otherwise the deque rotates. -/
def getKeyAux (now : ℚ) :
    Nat → List String → List (String × KeyStatus) →
    Option (String × List String × List (String × KeyStatus))
  | 0, _, _ => none
  | _ + 1, [], _ => none
  | fuel + 1, k :: rest, st =>
    match lookupStatus st k with
    | some s =>
      if s.cooldown_until ≤ now then
        some (k, k :: rest,
          updateStatus (fun s0 => { s0 with total_calls := s0.total_calls + 1 })
            st k)
      else getKeyAux now fuel (rest ++ [k]) st
    | none => getKeyAux now fuel (rest ++ [k]) st

/-- The result of `get_key`: the returned key, the manager afterwards, and how
long the call slept (0 in the fast path). -/
structure AcquireResult where
  key : String
  mgr : KeyManager
  waited : ℚ
deriving DecidableEq

/-- `APIKeyManager.get_key` (lines 64-88): scan the deque for a key past its
cooldown; if every key is cooling, sleep until the head key's cooldown expires
and return the head key.  The function never consults the monitor's validity
flags and never fails once the pool is nonempty (`none` only models the
impossible empty pool, which the constructor forbids). -/
def get_key (m : KeyManager) (now : ℚ) : Option AcquireResult :=
  match getKeyAux now m.keys.length m.keys m.status with
  | some (k, ks, st) => some ⟨k, { m with keys := ks, status := st }, 0⟩
  | none =>
    match m.keys with
    | [] => none
    | k :: _ =>
      let waited : ℚ :=
        match lookupStatus m.status k with
        | some s => if now < s.cooldown_until then s.cooldown_until - now else 0
        | none => 0
      some ⟨k, m, waited⟩

/-- `rate_limit` classification of `mark_failure` (line 104). -/
def isRateLimitMsg (msg : String) : Bool :=
  let m := pyLower msg
  containsKW m "rate" || containsKW m "limit" || containsKW m "quota" ||
    containsKW m "exceeded" || containsKW m "too many"

/-- The connection/transient classification of `mark_failure` (line 105). -/
def isConnectionMsg (msg : String) : Bool :=
  let m := pyLower msg
  containsKW m "server disconnected" || containsKW m "internal server error" ||
    containsKW m "connection" || containsKW m "timeout" ||
    containsKW m "network" || containsKW m "service unavailable"

/-- The cooldown `mark_failure` (api_key_manager.py lines 107-120) assigns for
a retriable error, as a function of the classification flags, the
post-increment consecutive-failure count `n`, and the jitter draw `j` (the
value of `random.random() * 2 - 1`, in `[-1, 1]`): `max 1 (cd + cd*0.25*j)`
where `cd = min(base_backoff, max_backoff)`.  Connection errors that are not
rate limits use `base_backoff = min(5, 2^(n-1))` and `max_backoff = 30`; rate
limits use `base_backoff = 2^(n-1)` and `max_backoff = 60`. -/
def backoffCooldown (isRL isConn : Bool) (n : Nat) (j : ℚ) : ℚ :=
  let base : ℚ :=
    if isConn && !isRL then min 5 ((2 : ℚ) ^ (n - 1))
    else (2 : ℚ) ^ (n - 1)
  let maxBackoff : ℚ := if isConn && !isRL then 30 else 60
  let cd0 := min base maxBackoff
  max 1 (cd0 + cd0 * (1 / 4) * j)

/-- `APIKeyManager.mark_failure` (lines 97-134): bump the failure count, and on
a retriable error set `cooldown_until = now + backoffCooldown ...` and rotate;
non-retriable errors change nothing else and do not rotate.  (When the key has
no status record, Python falls back to `base_backoff` 5 / 1 with the same
jitter clamp.) -/
def mark_failure (m : KeyManager) (key msg : String) (now j : ℚ) :
    KeyManager :=
  let st1 := updateStatus
    (fun s => { s with failure_count := s.failure_count + 1 }) m.status key
  let isRL := isRateLimitMsg msg
  let isConn := isConnectionMsg msg
  if isRL || isConn then
    let cd : ℚ :=
      match lookupStatus st1 key with
      | some s => backoffCooldown isRL isConn s.failure_count j
      | none =>
        let base : ℚ := if isConn && !isRL then 5 else 1
        let cd0 := min base (if isConn && !isRL then 30 else 60)
        max 1 (cd0 + cd0 * (1 / 4) * j)
    let st2 :=
      if (lookupStatus st1 key).isSome then
        updateStatus (fun s => { s with cooldown_until := now + cd }) st1 key
      else st1
    rotate_key { m with status := st2 }
  else { m with status := st1 }

/-! ## API-key monitor (app/monitoring) -/

/-- Reasons recorded by the invalidation checks of `record_call`
(api_key_monitor.py lines 108-120); the Python strings carry the offending
numbers, abstracted here. -/
inductive InvalidReason where
  | consecutiveFailures (n : Nat) : InvalidReason
  | highFailureRate : InvalidReason
deriving DecidableEq

/-- `APIKeyStats` (api_key_stats.py lines 9-52) restricted to the counters that
`record_call` maintains.  `failure_rate_window` stores the success flag of the
last (at most) 50 calls, oldest first. -/
structure KeyStats where
  total_calls : Nat
  successful_calls : Nat
  failed_calls : Nat
  rate_limit_hits : Nat
  total_response_time : ℚ
  avg_response_time : ℚ
  failure_rate_window : List Bool
  consecutive_failures : Nat
  is_valid : Bool
  invalidation_reason : Option InvalidReason
deriving DecidableEq

/-- A freshly registered key's stats (`register_key`,
api_key_monitor.py lines 37-51, with the `APIKeyStats` defaults). -/
def initKeyStats : KeyStats :=
  { total_calls := 0, successful_calls := 0, failed_calls := 0,
    rate_limit_hits := 0, total_response_time := 0, avg_response_time := 0,
    failure_rate_window := [], consecutive_failures := 0, is_valid := true,
    invalidation_reason := none }

/-- Failures recorded in a window. -/
def windowFailures (w : List Bool) : Nat :=
  (w.filter (fun b => !b)).length

/-- `recent_failure_rate > 80` (api_key_stats.py lines 67-72 with
api_key_monitor.py line 116), cleared of the division:
`failures / len * 100 > 80  ↔  failures * 5 > len * 4`. -/
def highFailureRateCheck (w : List Bool) : Bool :=
  50 ≤ w.length && 4 * w.length < 5 * windowFailures w

/-- The rolling-window update of `record_call` (api_key_monitor.py lines
97-100): append the outcome, then `pop(0)` when the window exceeds 50. -/
def windowAfter (w : List Bool) (success : Bool) : List Bool :=
  let w0 := w ++ [success]
  if 50 < w0.length then w0.drop 1 else w0

/-- `APIKeyMonitor.record_call` (api_key_monitor.py lines 53-120): update the
call counters and response-time average, push the outcome into the 50-slot
rolling window, reset or bump `consecutive_failures`, and apply the two
invalidation checks — 10 consecutive failures, or a full window with a
failure rate above 80%.  `is_valid` is never set back to true. -/
def record_call (s : KeyStats) (success rateLimited : Bool)
    (responseTime : ℚ) : KeyStats :=
  let s1 : KeyStats :=
    { s with total_calls := s.total_calls + 1,
             successful_calls := s.successful_calls +
               (if success then 1 else 0),
             failed_calls := s.failed_calls + (if success then 0 else 1),
             rate_limit_hits := s.rate_limit_hits +
               (if rateLimited then 1 else 0),
             total_response_time := s.total_response_time + responseTime }
  let s2 : KeyStats :=
    { s1 with avg_response_time :=
        s1.total_response_time / (s1.total_calls : ℚ) }
  let w := windowAfter s2.failure_rate_window success
  let s3 : KeyStats := { s2 with failure_rate_window := w }
  let s4 : KeyStats :=
    if success then { s3 with consecutive_failures := 0 }
    else
      let cf := s3.consecutive_failures + 1
      if 10 ≤ cf then
        { s3 with consecutive_failures := cf, is_valid := false,
                  invalidation_reason :=
                    some (InvalidReason.consecutiveFailures cf) }
      else { s3 with consecutive_failures := cf }
  if highFailureRateCheck w then
    { s4 with is_valid := false,
              invalidation_reason := some InvalidReason.highFailureRate }
  else s4

/-- The key pool together with the monitor registry: `acquire` is
`APIKeyManager.get_key`, which reads only the manager — the monitor's
`is_valid` flags play no part in key selection. -/
structure KeySystem where
  mgr : KeyManager
  monitor : List (String × KeyStats)
deriving DecidableEq

/-- Key acquisition of the combined system: exactly `get_key` on the pool. -/
def acquire (sys : KeySystem) (now : ℚ) : Option AcquireResult :=
  get_key sys.mgr now

/-! ## Concrete inputs used by the closed statements below -/

/-- A well-formed `map` dict: two self-invented categories, each mapping to a
nonempty word-pair list. -/
def sampleMap : PyVal :=
  PyVal.vDict
    [("Location", PyVal.vList [PyVal.vStr "city", PyVal.vStr "town"]),
     ("Facility", PyVal.vList [PyVal.vStr "library", PyVal.vStr "center"])]

/-- A well-formed original sentence (9 words, 46 characters). -/
def sampleOriginal : String := "The city opened a new public library this week"

/-- A well-formed migrated sentence (9 words, 46 characters). -/
def sampleImitation : String := "The town opened a new sports center this month"

/-- A chunk text (the spec's scenario-1 transcript shortened to one chunk). -/
def sampleChunkText : String :=
  "The city opened a new public library this week. The modern building offers more than just books."

/-- A successful shadow-writing LLM response. -/
def sampleShadowLLM : ShadowLLMResult :=
  { original := sampleOriginal, imitation := sampleImitation, map := sampleMap }

/-- A verdict that passes the gate: total 10, logic 3, `pass=true`. -/
def passVerdict : QualityLLMResult :=
  { total_score := 10, step3_logic := 3, step3_issues := [], pass := true,
    step1_grammar := 3, step2_content := 2, step4_topic := 1,
    step5_learning := 1 }

/-- The same high verdict but with the LLM's `pass` field set to false. -/
def highNoPassVerdict : QualityLLMResult := { passVerdict with pass := false }

/-- The same verdict with a vetoing logic score. -/
def lowLogicVerdict : QualityLLMResult := { passVerdict with step3_logic := 1 }

/-- Oracle for a fully successful chunk run. -/
def sampleOracle : ChunkOracle :=
  { shadow := some sampleShadowLLM, quality := some passVerdict }

/-- A fresh task record. -/
def taskZero : TaskRec :=
  { status := "pending", total_chunks := 0, completed_chunks := 0,
    progress := 0 }

/-- The validated artifact produced from `sampleShadowLLM`. -/
def sampleArtifact : TedShadows :=
  { original := sampleOriginal, imitation := sampleImitation,
    map := sampleMap.entries, paragraph := sampleChunkText,
    quality_score := 6 }

/-- A candidate whose imitation has 2 words. -/
def shortImitationRaw : RawShadow :=
  { original := sampleOriginal, imitation := "too short", map := sampleMap,
    paragraph := sampleChunkText }

/-- A single hot key (no cooldown) for the pool. -/
def k1Status : KeyStatus :=
  { failure_count := 0, cooldown_until := 0, total_calls := 0 }

/-- Monitor stats after ten straight failed calls. -/
def tenFailureStats : KeyStats :=
  (List.range 10).foldl (fun s _ => record_call s false false 0) initKeyStats

/-- A pool of one key whose monitor entry has been invalidated. -/
def sysC3 : KeySystem :=
  { mgr := { keys := ["k1"], status := [("k1", k1Status)],
             total_switches := 0 },
    monitor := [("k1", tenFailureStats)] }

/-- A pool whose only key already has 3 consecutive failures recorded. -/
def mgrC8 : KeyManager :=
  { keys := ["k"],
    status := [("k", { failure_count := 3, cooldown_until := 0,
                       total_calls := 0 })],
    total_switches := 0 }

/-- Three consecutively published progress events of one task. -/
def evtA : SSEMessage := { id := "t_1000", type := "progress" }

/-- Second event of the task. -/
def evtB : SSEMessage := { id := "t_1001", type := "progress" }

/-- Third event of the task. -/
def evtC : SSEMessage := { id := "t_1002", type := "progress" }

/-- A terminal `failed` event. -/
def evtFailed : SSEMessage := { id := "t_2000", type := "failed" }

/-- An event published after the `failed` event. -/
def evtNext : SSEMessage := { id := "t_2001", type := "progress" }

/-- A terminal `completed` event. -/
def evtDone : SSEMessage := { id := "t_3000", type := "completed" }

/-- A 240-character sentence with no terminators. -/
def longSentence : String := String.mk (List.replicate 240 'a')

/-- An 11-character trailing sentence. -/
def tailSentence : String := "short lines"

/-- A 253-character transcript: the long sentence, a terminator, and the short
tail. -/
def textC9 : String := longSentence ++ ". " ++ tailSentence

/-! ## Helper lemmas -/

theorem validation_some_quality_score (raw : Option RawShadow)
    (a : TedShadows) (h : validation_single_chunk raw = some a) :
    a.quality_score = 6 := by
  cases raw with
  | none => simp [validation_single_chunk] at h
  | some r =>
    simp only [validation_single_chunk] at h
    split at h
    · simp only [tedShadowsMk] at h
      split at h
      · simp only [Option.some.injEq] at h
        subst h
        rfl
      · cases h
    · cases h

theorem pipeline_final_chunks (chunkText : String) (taskId : Option String)
    (totalChunks : Nat) (oracle : ChunkOracle) (db : TaskRec) :
    (runChunkPipeline chunkText taskId totalChunks oracle db).final_chunks =
      (validation_single_chunk
        (shadow_writing_single_chunk chunkText taskId totalChunks
          oracle.shadow db).1).toList := by
  cases hv : validation_single_chunk
      (shadow_writing_single_chunk chunkText taskId totalChunks
        oracle.shadow db).1 with
  | none =>
    simp [runChunkPipeline, hv, quality_single_chunk, correction_single_chunk,
      finalize_single_chunk, Option.orElse]
  | some v =>
    simp only [runChunkPipeline, hv, correction_single_chunk]
    split <;>
      cases taskId <;>
        simp [finalize_single_chunk, Option.orElse, get_current_task_info]

theorem quality_low_logic_fails (validated : Option TedShadows)
    (llm : Option QualityLLMResult)
    (h : ∀ r ∈ llm, r.step3_logic < 2) :
    (quality_single_chunk validated llm).quality_passed = false := by
  cases validated with
  | none => rfl
  | some v =>
    cases llm with
    | none => rfl
    | some r =>
      have hr := h r rfl
      simp [quality_single_chunk, hr]

/-! ## C4 — validation rejection law -/

/-- C4: any candidate presented to the validate stage whose imitation has
fewer than 8 words, or whose map is a dict with 0 entries, is rejected — no
validated artifact is produced. -/
theorem validation_rejects_short_imitation_or_empty_map (r : RawShadow)
    (h : wordCount r.imitation < 8 ∨
      (r.map.isDict = true ∧ r.map.dictLen = 0)) :
    validation_single_chunk (some r) = none := by
  simp only [validation_single_chunk]
  rcases h with h | ⟨hd, hl⟩
  · split
    · refine if_neg ?_
      intro hc
      simp only [Bool.and_eq_true, decide_eq_true_eq] at hc
      omega
    · rfl
  · cases hm : r.map <;> rw [hm] at hd <;> simp [PyVal.isDict] at hd
    case vDict kvs =>
      rw [hm] at hl
      simp only [PyVal.dictLen] at hl
      have hk : kvs = [] := List.length_eq_zero.mp hl
      subst hk
      simp [PyVal.truthy]

/-- Witness for C4 at a concrete candidate with a 2-word imitation. -/
theorem validation_rejects_short_imitation_or_empty_map_witness :
    wordCount shortImitationRaw.imitation < 8 ∧
      validation_single_chunk (some shortImitationRaw) = none :=
  ⟨by decide,
    validation_rejects_short_imitation_or_empty_map shortImitationRaw
      (Or.inl (by decide))⟩

/-! ## C10 — the finalized quality score is the constant 6.0 -/

/-- C10: every artifact a chunk pipeline contributes to the task's aggregate
`final_shadow_chunks` carries `quality_score` exactly 6.0 — the constant
assigned when the artifact is constructed at validation — whatever the quality
verdict said. -/
theorem finalized_quality_score_constant_six (chunkText : String)
    (taskId : Option String) (totalChunks : Nat) (oracle : ChunkOracle)
    (db : TaskRec) (a : TedShadows)
    (ha : a ∈ (runChunkPipeline chunkText taskId totalChunks oracle
      db).final_chunks) :
    a.quality_score = 6 := by
  rw [pipeline_final_chunks] at ha
  cases hv : validation_single_chunk
      (shadow_writing_single_chunk chunkText taskId totalChunks
        oracle.shadow db).1 with
  | none => rw [hv] at ha; simp at ha
  | some v =>
    rw [hv] at ha
    simp only [Option.toList_some, List.mem_singleton] at ha
    subst ha
    exact validation_some_quality_score _ _ hv

/-- Witness for C10 on a concrete successful run. -/
theorem finalized_quality_score_constant_six_witness :
    sampleArtifact ∈ (runChunkPipeline sampleChunkText (some "task-1") 1
      sampleOracle taskZero).final_chunks ∧
    sampleArtifact.quality_score = 6 := by
  have hm : sampleArtifact ∈ (runChunkPipeline sampleChunkText (some "task-1")
      1 sampleOracle taskZero).final_chunks := by
    have he : (runChunkPipeline sampleChunkText (some "task-1") 1 sampleOracle
        taskZero).final_chunks = [sampleArtifact] := rfl
    rw [he]
    exact List.mem_singleton_self _
  exact ⟨hm,
    finalized_quality_score_constant_six sampleChunkText (some "task-1") 1
      sampleOracle taskZero sampleArtifact hm⟩

/-! ## C2 — the quality gate -/

/-- C2 counterexample: a verdict with `total_score = 10 ≥ 9` and
`step3_logic = 3 ≥ 2` whose LLM `pass` field is false fails the gate, so the
LLM's `pass` field is not advisory — it changes the outcome. -/
theorem quality_gate_uses_llm_pass_field :
    (9 : ℚ) ≤ highNoPassVerdict.total_score ∧
    (2 : Int) ≤ highNoPassVerdict.step3_logic ∧
    highNoPassVerdict.pass = false ∧
    (quality_single_chunk (some sampleArtifact)
      (some highNoPassVerdict)).quality_passed = false := by
  refine ⟨by decide, by decide, rfl, ?_⟩
  decide

/-- C2 amended: the chunk passes the gate iff `total_score ≥ 9` AND the LLM's
`pass` field is true AND `step3_logic ≥ 2`; the logic-veto half of the claim
stands — a verdict with `logic < 2` (or a failed quality call) always routes
the pipeline through the correction stage before finalize. -/
theorem quality_gate_rule_and_logic_veto :
    (∀ (v : TedShadows) (r : QualityLLMResult),
      ((quality_single_chunk (some v) (some r)).quality_passed = true ↔
        (9 ≤ r.total_score ∧ r.pass = true ∧ 2 ≤ r.step3_logic)))
    ∧ ∀ (chunkText : String) (taskId : Option String) (totalChunks : Nat)
        (oracle : ChunkOracle) (db : TaskRec),
        (∀ r ∈ oracle.quality, r.step3_logic < 2) →
        (runChunkPipeline chunkText taskId totalChunks oracle
          db).corrected_used = true := by
  constructor
  · intro v r
    simp only [quality_single_chunk]
    split
    · simp only [Bool.false_eq_true, false_iff, not_and]
      intro _ _
      omega
    · simp only [Bool.and_eq_true, decide_eq_true_eq]
      constructor
      · rintro ⟨h9, hp⟩
        exact ⟨h9, hp, by omega⟩
      · rintro ⟨h9, hp, -⟩
        exact ⟨h9, hp⟩
  · intro chunkText taskId totalChunks oracle db hlow
    have hq := quality_low_logic_fails
      (validation_single_chunk (shadow_writing_single_chunk chunkText taskId
        totalChunks oracle.shadow db).1) oracle.quality hlow
    simp [runChunkPipeline, hq]

/-- Witness for C2's amended statement: a logic-1 verdict forces the
correction route on a concrete run. -/
theorem quality_gate_rule_and_logic_veto_witness :
    (∀ r ∈ (ChunkOracle.mk (some sampleShadowLLM)
        (some lowLogicVerdict)).quality, r.step3_logic < 2)
    ∧ (runChunkPipeline sampleChunkText (some "task-1") 1
        (ChunkOracle.mk (some sampleShadowLLM) (some lowLogicVerdict))
        taskZero).corrected_used = true := by
  have h1 : ∀ r ∈ (ChunkOracle.mk (some sampleShadowLLM)
      (some lowLogicVerdict)).quality, r.step3_logic < 2 := by
    intro r hr
    cases hr
    decide
  exact ⟨h1, quality_gate_rule_and_logic_veto.2 sampleChunkText
    (some "task-1") 1 _ taskZero h1⟩

/-! ## C1 — the completed-chunk counter overshoots the total -/

/-- C1: at the failing input — one chunk, `update_chunks_info` set
`total_chunks = 1`, generation and quality both succeed — the run drives
`completed_chunks` to 2 > 1, because `shadow_writing_single_chunk` and
`finalize_single_chunk` each call `increment_completed_chunk` for the same
chunk. -/
theorem chunk_counter_exceeds_total_on_one_successful_chunk :
    (update_chunks_info taskZero 1).total_chunks = 1 ∧
    (runChunkPipeline sampleChunkText (some "task-1") 1 sampleOracle
      (update_chunks_info taskZero 1)).db.total_chunks = 1 ∧
    (runChunkPipeline sampleChunkText (some "task-1") 1 sampleOracle
      (update_chunks_info taskZero 1)).db.completed_chunks = 2 := by
  refine ⟨rfl, rfl, ?_⟩
  decide

/-! ## C5 — the parallel correction stage is a stub -/

/-- C5: the parallel correction stage returns the validated artifact unchanged
for every input — no LLM call is made and no acceptance check is applied —
whereas the serial correction agent's acceptance rule (the behavior the claim
describes) accepts exactly when the improved imitation has at least 8 words
and the map is a dict with at least 2 entries. -/
theorem correction_stub_bypasses_llm_and_checks :
    (∀ v : TedShadows, correction_single_chunk (some v) = some v)
    ∧ ∀ (imitation : String) (m : PyVal),
        correction_accepts imitation m = true ↔
          (8 ≤ wordCount imitation ∧ m.isDict = true ∧ 2 ≤ m.dictLen) := by
  constructor
  · intro v
    rfl
  · intro im m
    simp only [correction_accepts, Bool.and_eq_true, decide_eq_true_eq]
    constructor
    · rintro ⟨⟨⟨-, h8⟩, hd⟩, hl⟩
      exact ⟨h8, hd, hl⟩
    · rintro ⟨h8, hd, hl⟩
      refine ⟨⟨⟨?_, h8⟩, hd⟩, hl⟩
      intro he
      rw [he] at h8
      exact absurd h8 (by decide)

/-! ## Key-pool lemmas -/

theorem lookupStatus_updateStatus (f : KeyStatus → KeyStatus) :
    ∀ (st : List (String × KeyStatus)) (k : String),
      lookupStatus (updateStatus f st k) k = (lookupStatus st k).map f := by
  intro st k
  induction st with
  | nil => rfl
  | cons p rest ih =>
    by_cases h : p.1 = k <;> simp [updateStatus, lookupStatus, h, ih]

theorem getKeyAux_mem :
    ∀ (fuel : Nat) (keys : List String) (st : List (String × KeyStatus))
      (now : ℚ) (k : String) (ks : List String)
      (st' : List (String × KeyStatus)),
      getKeyAux now fuel keys st = some (k, ks, st') → k ∈ keys := by
  intro fuel
  induction fuel with
  | zero =>
    intro keys st now k ks st' h
    simp [getKeyAux] at h
  | succ n ih =>
    intro keys st now k ks st' h
    cases keys with
    | nil => simp [getKeyAux] at h
    | cons k0 rest =>
      simp only [getKeyAux] at h
      cases hl : lookupStatus st k0 with
      | some s =>
        rw [hl] at h
        simp only at h
        split at h
        · simp only [Option.some.injEq, Prod.mk.injEq] at h
          obtain ⟨rfl, -⟩ := h
          exact List.mem_cons_self _ _
        · have hm := ih _ _ _ _ _ _ h
          rcases List.mem_append.mp hm with h1 | h1
          · exact List.mem_cons_of_mem _ h1
          · rw [List.mem_singleton.mp h1]
            exact List.mem_cons_self _ _
      | none =>
        rw [hl] at h
        simp only at h
        have hm := ih _ _ _ _ _ _ h
        rcases List.mem_append.mp hm with h1 | h1
        · exact List.mem_cons_of_mem _ h1
        · rw [List.mem_singleton.mp h1]
          exact List.mem_cons_self _ _

theorem mark_failure_lookup (m : KeyManager) (key msg : String)
    (s : KeyStatus) (now j : ℚ)
    (hs : lookupStatus m.status key = some s)
    (hcl : (isRateLimitMsg msg || isConnectionMsg msg) = true) :
    lookupStatus (mark_failure m key msg now j).status key =
      some { failure_count := s.failure_count + 1,
             cooldown_until := now + backoffCooldown (isRateLimitMsg msg)
               (isConnectionMsg msg) (s.failure_count + 1) j,
             total_calls := s.total_calls } := by
  have h1 : lookupStatus (updateStatus
      (fun s0 => { s0 with failure_count := s0.failure_count + 1 })
      m.status key) key = some { s with failure_count := s.failure_count + 1 } := by
    rw [lookupStatus_updateStatus, hs]
    rfl
  simp only [mark_failure, hcl, if_true, h1, Option.isSome_some, rotate_key]
  rw [lookupStatus_updateStatus, h1]
  rfl

theorem jitter_bounds (c j : ℚ) (hc : 0 ≤ c) (h1 : -1 ≤ j) (h2 : j ≤ 1) :
    c * (3 / 4) ≤ max 1 (c + c * (1 / 4) * j) ∧
      max 1 (c + c * (1 / 4) * j) ≤ c * (5 / 4) + 1 := by
  constructor
  · have h : c * (3 / 4) ≤ c + c * (1 / 4) * j := by nlinarith
    exact le_trans h (le_max_right _ _)
  · apply max_le
    · nlinarith
    · nlinarith

/-! ## C3 — key acquisition vs. the invalidation policy -/

/-- C3 counterexample: the pool's only key has been marked invalid by the
monitor (ten straight failures set `is_valid=false`), yet `acquire` still
returns that key — and returns a key (rather than failing) although no valid
key remains. -/
theorem acquire_returns_monitor_invalid_key :
    tenFailureStats.is_valid = false ∧
    sysC3.monitor = [("k1", tenFailureStats)] ∧
    (acquire sysC3 100).map (fun r => r.key) = some "k1" := by
  refine ⟨by decide, rfl, by decide⟩

/-- C3 amended: the monitor's `record_call` does implement the invalidation
policy — a key reaching 10 consecutive failures, or a full 50-call window with
failure rate above 80%, is set `valid=false` — but `get_key` selects keys by
cooldown alone: whenever the pool is nonempty it returns a key of the pool,
regardless of the monitor's validity flags, and no `AllKeysExhausted` failure
exists. -/
theorem invalidation_policy_and_acquire_ignores_validity :
    (∀ (s : KeyStats) (rateLimited : Bool) (rt : ℚ),
      10 ≤ s.consecutive_failures + 1 →
        (record_call s false rateLimited rt).consecutive_failures =
          s.consecutive_failures + 1 ∧
        (record_call s false rateLimited rt).is_valid = false)
    ∧ (∀ (s : KeyStats) (success rateLimited : Bool) (rt : ℚ),
      highFailureRateCheck (windowAfter s.failure_rate_window success) =
          true →
        (record_call s success rateLimited rt).is_valid = false)
    ∧ (∀ (sys : KeySystem) (now : ℚ), sys.mgr.keys ≠ [] →
        ∃ r : AcquireResult, acquire sys now = some r ∧
          r.key ∈ sys.mgr.keys) := by
  refine ⟨?_, ?_, ?_⟩
  · intro s rateLimited rt h
    constructor <;>
      · simp only [record_call]
        split_ifs <;> simp_all
  · intro s success rateLimited rt h
    simp only [record_call]
    rw [if_pos h]
  · intro sys now hne
    cases haux : getKeyAux now sys.mgr.keys.length sys.mgr.keys
        sys.mgr.status with
    | some t =>
      obtain ⟨k, ks, st⟩ := t
      refine ⟨⟨k, { sys.mgr with keys := ks, status := st }, 0⟩, ?_, ?_⟩
      · simp [acquire, get_key, haux]
      · exact getKeyAux_mem _ _ _ _ _ _ _ haux
    | none =>
      cases hk : sys.mgr.keys with
      | nil => exact absurd hk hne
      | cons k0 rest =>
        rw [hk] at haux
        refine ⟨⟨k0, sys.mgr,
          match lookupStatus sys.mgr.status k0 with
          | some s =>
            if now < s.cooldown_until then s.cooldown_until - now else 0
          | none => 0⟩, ?_, ?_⟩
        · simp only [acquire, get_key, hk, haux]
        · exact List.mem_cons_self _ _

/-- Witness for C3's amended statement on the concrete one-key pool. -/
theorem invalidation_policy_and_acquire_ignores_validity_witness :
    sysC3.mgr.keys ≠ [] ∧
    (∃ r : AcquireResult, acquire sysC3 100 = some r ∧
      r.key ∈ sysC3.mgr.keys) :=
  ⟨by decide,
    invalidation_policy_and_acquire_ignores_validity.2.2 sysC3 100
      (by decide)⟩

/-! ## C8 — the backoff law -/

/-- C8 counterexample: a key at post-increment failure count `n = 4` hit by a
transient connection error is assigned cooldown 5 (at jitter 0), because the
code's base is `min(5, 2^(n-1))`; the claim's `min(30s, 2^(n-1)) ± 25%` law
would require at least `min(30, 2^3) * 0.75 = 6` seconds. -/
theorem transient_backoff_base_capped_at_five :
    isConnectionMsg "connection timeout" = true ∧
    isRateLimitMsg "connection timeout" = false ∧
    ((lookupStatus (mark_failure mgrC8 "k" "connection timeout" 0 0).status
        "k").map (fun s => s.cooldown_until)) = some 5 ∧
    ¬(min (30 : ℚ) (2 ^ (4 - 1 : Nat)) * (3 / 4) ≤ 5) := by
  have hconn : isConnectionMsg "connection timeout" = true := by decide
  have hrl : isRateLimitMsg "connection timeout" = false := by decide
  refine ⟨hconn, hrl, ?_, by norm_num⟩
  simp only [mark_failure, backoffCooldown, mgrC8, updateStatus,
    lookupStatus, rotate_key, hconn, hrl]
  norm_num

/-- C8 amended: for a key whose stored failure count is `s.failure_count`
(so post-increment `n = s.failure_count + 1` and `2^(n-1) = 2^s.failure_count`)
and any jitter draw in `[-1, 1]`: a rate-limited error yields
`cooling_until - now` within `[0.75*c, 1.25*c + 1]` for
`c = min(2^(n-1), 60)` — as the claim states; a transient connection error
yields bounds with `c = min(5, 2^(n-1))` — base capped at 5 s, not the
claimed `min(30s, 2^(n-1))`. -/
theorem backoff_cooldown_bounds (m : KeyManager) (key msg : String)
    (s : KeyStatus) (now j : ℚ)
    (hs : lookupStatus m.status key = some s)
    (hj1 : -1 ≤ j) (hj2 : j ≤ 1) :
    (isRateLimitMsg msg = true →
      ∃ s', lookupStatus (mark_failure m key msg now j).status key = some s'
        ∧ min ((2 : ℚ) ^ s.failure_count) 60 * (3 / 4) ≤
            s'.cooldown_until - now
        ∧ s'.cooldown_until - now ≤
            min ((2 : ℚ) ^ s.failure_count) 60 * (5 / 4) + 1)
    ∧ (isConnectionMsg msg = true → isRateLimitMsg msg = false →
      ∃ s', lookupStatus (mark_failure m key msg now j).status key = some s'
        ∧ min (5 : ℚ) ((2 : ℚ) ^ s.failure_count) * (3 / 4) ≤
            s'.cooldown_until - now
        ∧ s'.cooldown_until - now ≤
            min (5 : ℚ) ((2 : ℚ) ^ s.failure_count) * (5 / 4) + 1) := by
  constructor
  · intro hrl
    have hcl : (isRateLimitMsg msg || isConnectionMsg msg) = true := by
      rw [hrl]
      rfl
    have hc0 : (0 : ℚ) ≤ min ((2 : ℚ) ^ s.failure_count) 60 := by positivity
    have hb := jitter_bounds (min ((2 : ℚ) ^ s.failure_count) 60) j hc0
      hj1 hj2
    refine ⟨_, mark_failure_lookup m key msg s now j hs hcl, ?_, ?_⟩
    · simpa [backoffCooldown, hrl, Nat.add_sub_cancel, add_sub_cancel_left]
        using hb.1
    · simpa [backoffCooldown, hrl, Nat.add_sub_cancel, add_sub_cancel_left]
        using hb.2
  · intro hconn hnrl
    have hcl : (isRateLimitMsg msg || isConnectionMsg msg) = true := by
      rw [hconn, hnrl]
      rfl
    have hle : min (5 : ℚ) ((2 : ℚ) ^ s.failure_count) ≤ 30 :=
      le_trans (min_le_left _ _) (by norm_num)
    have hmin : min (min (5 : ℚ) ((2 : ℚ) ^ s.failure_count)) 30 =
        min (5 : ℚ) ((2 : ℚ) ^ s.failure_count) := min_eq_left hle
    have hc0 : (0 : ℚ) ≤ min (5 : ℚ) ((2 : ℚ) ^ s.failure_count) := by
      positivity
    have hb := jitter_bounds (min (5 : ℚ) ((2 : ℚ) ^ s.failure_count)) j hc0
      hj1 hj2
    refine ⟨_, mark_failure_lookup m key msg s now j hs hcl, ?_, ?_⟩
    · simpa [backoffCooldown, hconn, hnrl, Nat.add_sub_cancel,
        add_sub_cancel_left, hmin] using hb.1
    · simpa [backoffCooldown, hconn, hnrl, Nat.add_sub_cancel,
        add_sub_cancel_left, hmin] using hb.2

/-! ## String-order lemmas for the SSE replay -/

theorem charListLt_irrefl : ∀ l : List Char, charListLt l l = false := by
  intro l
  induction l with
  | nil => rfl
  | cons a as ih => simp [charListLt, lt_irrefl, ih]

theorem charListLt_asymm :
    ∀ l1 l2 : List Char, charListLt l1 l2 = true →
      charListLt l2 l1 = false := by
  intro l1
  induction l1 with
  | nil =>
    intro l2 h
    cases l2 with
    | nil => simp [charListLt] at h
    | cons b bs => rfl
  | cons a as ih =>
    intro l2 h
    cases l2 with
    | nil => simp [charListLt] at h
    | cons b bs =>
      simp only [charListLt] at h ⊢
      by_cases hab : a < b
      · rw [if_neg (lt_asymm hab), if_pos hab]
      · rw [if_neg hab] at h
        by_cases hba : b < a
        · rw [if_pos hba] at h
          cases h
        · rw [if_neg hba] at h
          rw [if_neg hba, if_neg hab]
          exact ih bs h

theorem pyStrLt_irrefl (s : String) : pyStrLt s s = false :=
  charListLt_irrefl s.data

theorem pyStrLt_asymm {a b : String} (h : pyStrLt a b = true) :
    pyStrLt b a = false :=
  charListLt_asymm a.data b.data h

theorem pyStrLt_ne {a b : String} (h : pyStrLt a b = true) : a ≠ b := by
  intro he
  rw [he, pyStrLt_irrefl] at h
  cases h

theorem mem_of_getLastEq {α : Type} {l : List α} {x : α}
    (h : l.getLast? = some x) : x ∈ l := by
  have h2 := List.mem_getLast?_eq_getLast (l := l) (x := x) (by rw [h]; rfl)
  obtain ⟨hne, rfl⟩ := h2
  exact List.getLast_mem hne

/-- Under a one-event-per-poll schedule the polling loop emits exactly the new
events, provided adjacent ids differ, the first new id differs from the seed,
and no new event is terminal. -/
theorem liveLoop_pollsOneByOne :
    ∀ (news : List SSEMessage) (q : List SSEMessage) (lastSent : String),
      (∀ m ∈ news, m.type ≠ "completed") →
      List.Chain' (fun m1 m2 => m1.id ≠ m2.id) news →
      (∀ m ∈ news.head?, m.id ≠ lastSent) →
      liveLoop lastSent (pollsOneByOne q news) = news := by
  intro news
  induction news with
  | nil =>
    intro q lastSent _ _ _
    rfl
  | cons n rest ih =>
    intro q lastSent hnc hch hhd
    have hne : n.id ≠ lastSent := hhd n rfl
    have hnn : n.type ≠ "completed" := hnc n (List.mem_cons_self _ _)
    simp only [pollsOneByOne, liveLoop, List.getLast?_concat]
    rw [if_neg hne, if_neg hnn]
    congr 1
    apply ih
    · intro m hm
      exact hnc m (List.mem_cons_of_mem _ hm)
    · exact hch.tail
    · intro m hm
      exact ((List.chain'_cons'.mp hch).1 m hm).symm

/-! ## C6 — resumable replay -/

/-- C6 counterexample: the subscriber resumes from `evtA`; `evtB` and `evtC`
are both published before the next poll, and the polling loop — which sends
only `get_latest_message` — emits `[evtC]`, skipping `evtB`, instead of the
claimed `[evtB, evtC]`. -/
theorem live_poll_skips_intermediate_event :
    progressStream [evtA] "t_1000" [[evtA, evtB, evtC]] = [evtC] ∧
    evtB ∉ progressStream [evtA] "t_1000" [[evtA, evtB, evtC]] ∧
    progressStream [evtA] "t_1000" [[evtA, evtB, evtC]] ≠ [evtB, evtC] := by
  refine ⟨by decide, by decide, by decide⟩

/-- C6 amended: with strictly increasing ids, a subscriber that resumes from
event `e` receives exactly the cached suffix after `e`, in order with no
duplicates or gaps; subsequently produced events are all received in publish
order provided at most one event is published per poll interval (the
counterexample shows that two events between polls lose the earlier one). -/
theorem resume_replay_exact_with_one_event_per_poll :
    ∀ (a b news : List SSEMessage) (e : SSEMessage),
      List.Pairwise (fun m1 m2 => pyStrLt m1.id m2.id = true)
        ((a ++ e :: b) ++ news) →
      e.id ≠ "" →
      (∀ m ∈ news, m.type ≠ "completed") →
      progressStream (a ++ e :: b) e.id
        (pollsOneByOne (a ++ e :: b) news) = b ++ news := by
  intro a b news e hpair hne hnc
  obtain ⟨hq0, hnews, hcross⟩ := List.pairwise_append.mp hpair
  obtain ⟨ha, heb, hcross2⟩ := List.pairwise_append.mp hq0
  rw [List.pairwise_cons] at heb
  obtain ⟨heb1, hb⟩ := heb
  have hchain : List.Chain' (fun m1 m2 => m1.id ≠ m2.id) news :=
    (hnews.imp (fun h => pyStrLt_ne h)).chain'
  have hcached : get_messages (a ++ e :: b) e.id = b := by
    unfold get_messages
    rw [if_neg hne, List.filter_append, List.filter_cons]
    have hfa : a.filter (fun m => pyStrLt e.id m.id) = [] := by
      apply List.filter_eq_nil_iff.mpr
      intro x hx
      have hlt := hcross2 x hx e (List.mem_cons_self _ _)
      simp [pyStrLt_asymm hlt]
    have hfb : b.filter (fun m => pyStrLt e.id m.id) = b := by
      apply List.filter_eq_self.mpr
      intro x hx
      exact heb1 x hx
    simp [hfa, hfb, pyStrLt_irrefl]
  simp only [progressStream, hcached]
  cases hbl : b.getLast? with
  | none =>
    have hb0 : b = [] := List.getLast?_eq_none_iff.mp hbl
    subst hb0
    rw [if_neg hne]
    rw [liveLoop_pollsOneByOne news _ e.id hnc hchain ?_]
    · intro m hm
      have hmm : m ∈ news := List.mem_of_mem_head? hm
      have hlt := hcross e
        (List.mem_append.mpr (Or.inr (List.mem_cons_self _ _))) m hmm
      exact (pyStrLt_ne hlt).symm
  | some lst =>
    have hl : lst ∈ b := mem_of_getLastEq hbl
    rw [liveLoop_pollsOneByOne news _ lst.id hnc hchain ?_]
    · intro m hm
      have hmm : m ∈ news := List.mem_of_mem_head? hm
      have hlb : lst ∈ a ++ e :: b :=
        List.mem_append.mpr (Or.inr (List.mem_cons_of_mem _ hl))
      have hlt := hcross lst hlb m hmm
      exact (pyStrLt_ne hlt).symm

/-- Witness for C6's amended statement: resuming from `evtA` with cached
`evtB` and one later event `evtC` yields exactly `[evtB, evtC]`. -/
theorem resume_replay_exact_with_one_event_per_poll_witness :
    List.Pairwise (fun m1 m2 => pyStrLt m1.id m2.id = true)
      (([] ++ evtA :: [evtB]) ++ [evtC]) ∧
    progressStream ([] ++ evtA :: [evtB]) evtA.id
      (pollsOneByOne ([] ++ evtA :: [evtB]) [evtC]) = [evtB] ++ [evtC] := by
  have hp : List.Pairwise (fun m1 m2 => pyStrLt m1.id m2.id = true)
      (([] ++ evtA :: [evtB]) ++ [evtC]) := by decide
  exact ⟨hp, resume_replay_exact_with_one_event_per_poll [] [evtB] [evtC]
    evtA hp (by decide) (by decide)⟩

/-! ## C7 — terminal events and stream closure -/

/-- C7 counterexample: the stream does not close after sending a `failed`
event — `evtNext` is still emitted after `evtFailed` — because the code
breaks only on type `completed`. -/
theorem failed_event_does_not_close_stream :
    evtFailed.type = "failed" ∧
    progressStream [] "" (pollsOneByOne [] [evtFailed, evtNext]) =
      [evtFailed, evtNext] := by
  exact ⟨rfl, by decide⟩

/-- C7 amended: the polling loop closes the stream immediately after sending
an event of type `completed` (nothing is emitted after it); `failed` events do
not close the stream, as the counterexample shows. -/
theorem completed_closes_live_stream :
    ∀ (polls : List (List SSEMessage)) (lastSent : String)
      (l1 l2 : List SSEMessage) (m : SSEMessage),
      liveLoop lastSent polls = l1 ++ m :: l2 → m.type = "completed" →
      l2 = [] := by
  intro polls
  induction polls with
  | nil =>
    intro lastSent l1 l2 m h _
    cases l1 <;> simp [liveLoop] at h
  | cons q polls ih =>
    intro lastSent l1 l2 m h hm
    simp only [liveLoop] at h
    cases hq : q.getLast? with
    | none =>
      rw [hq] at h
      exact ih _ _ _ _ h hm
    | some n =>
      rw [hq] at h
      simp only at h
      by_cases hid : n.id = lastSent
      · rw [if_pos hid] at h
        exact ih _ _ _ _ h hm
      · rw [if_neg hid] at h
        by_cases hc : n.type = "completed"
        · rw [if_pos hc] at h
          cases l1 with
          | nil =>
            simp only [List.nil_append] at h
            exact (List.cons.injEq _ _ _ _ ▸ h).2.symm ▸ rfl
          | cons x l1' =>
            simp only [List.cons_append, List.cons.injEq] at h
            exact absurd h.2.symm (by simp)
        · rw [if_neg hc] at h
          cases l1 with
          | nil =>
            simp only [List.nil_append, List.cons.injEq] at h
            exact absurd (h.1 ▸ hm) hc
          | cons x l1' =>
            simp only [List.cons_append, List.cons.injEq] at h
            exact ih _ _ _ _ h.2 hm

/-- Witness for C7's amended statement: a single `completed` poll emits it and
nothing after it. -/
theorem completed_closes_live_stream_witness :
    liveLoop "0" (pollsOneByOne [] [evtDone]) = [] ++ evtDone :: [] ∧
    ([] : List SSEMessage) = [] := by
  refine ⟨by decide, ?_⟩
  exact completed_closes_live_stream (pollsOneByOne [] [evtDone]) "0" [] []
    evtDone (by decide) rfl

/-! ## C9 — the chunker -/

set_option maxRecDepth 8000 in
/-- C9 counterexample: a 253-character transcript made of a 240-character
sentence and an 11-character tail produces the chunks
`[longSentence, tailSentence]`; the final chunk has 11 characters — below the
150 minimum and not a single sentence exceeding 250 — refuting the claimed
`[150, 250]` bound. -/
theorem chunk_below_min_from_short_tail :
    split_into_chunks textC9 = [longSentence, tailSentence] ∧
    tailSentence.length = 11 ∧
    150 ≤ longSentence.length ∧
    textC9.length = 253 := by
  refine ⟨by decide, by decide, by decide, by decide⟩

/-- C9 amended: empty input yields an empty chunk list and chunks are numbered
`0..N-1` in source order, as claimed; but chunk lengths are not confined to
`[150, 250]` — in particular any nonempty transcript of at most 250
characters is returned whole as a single chunk, whatever its length, and the
final packed chunk can be arbitrarily short (counterexample). -/
theorem chunker_empty_whole_and_numbering :
    semantic_chunking_node "" = [] ∧
    (∀ text : String, text ≠ "" → text.length ≤ 250 →
      semantic_chunking_node text = [text]) ∧
    (∀ (chunks : List String) (taskId : Option String),
      (continue_to_pipelines chunks taskId).map ChunkSend.chunk_id =
        List.range chunks.length ∧
      (continue_to_pipelines chunks taskId).map ChunkSend.chunk_text =
        chunks) := by
  refine ⟨rfl, ?_, ?_⟩
  · intro text h1 h2
    unfold semantic_chunking_node split_into_chunks
    rw [if_neg h1, if_pos h2]
  · intro chunks taskId
    constructor
    · simp only [continue_to_pipelines, List.map_map]
      have he : (ChunkSend.chunk_id ∘ fun p : Nat × String =>
          ({ chunk_text := p.2, chunk_id := p.1, task_id := taskId,
             total_chunks := chunks.length } : ChunkSend)) = Prod.fst := rfl
      rw [he, List.enum_map_fst]
    · simp only [continue_to_pipelines, List.map_map]
      have he : (ChunkSend.chunk_text ∘ fun p : Nat × String =>
          ({ chunk_text := p.2, chunk_id := p.1, task_id := taskId,
             total_chunks := chunks.length } : ChunkSend)) = Prod.snd := rfl
      rw [he, List.enum_map_snd]

/-- Witness for C9's amended statement at a 5-character transcript. -/
theorem chunker_empty_whole_and_numbering_witness :
    ("hello" ≠ "" ∧ "hello".length ≤ 250) ∧
    semantic_chunking_node "hello" = ["hello"] :=
  ⟨⟨by decide, by decide⟩,
    chunker_empty_whole_and_numbering.2.1 "hello" (by decide) (by decide)⟩

/-- Witness for C8's amended statement: the transient-error bounds at the
concrete pool `mgrC8` (post-increment failure count 4, jitter 0). -/
theorem backoff_cooldown_bounds_witness :
    lookupStatus mgrC8.status "k" =
      some { failure_count := 3, cooldown_until := 0, total_calls := 0 } ∧
    (∃ s', lookupStatus
        (mark_failure mgrC8 "k" "connection timeout" 0 0).status "k" =
          some s'
      ∧ min (5 : ℚ) ((2 : ℚ) ^ (3 : Nat)) * (3 / 4) ≤ s'.cooldown_until - 0
      ∧ s'.cooldown_until - 0 ≤
          min (5 : ℚ) ((2 : ℚ) ^ (3 : Nat)) * (5 / 4) + 1) := by
  have hs : lookupStatus mgrC8.status "k" =
      some { failure_count := 3, cooldown_until := 0, total_calls := 0 } := by
    decide
  exact ⟨hs, (backoff_cooldown_bounds mgrC8 "k" "connection timeout"
    { failure_count := 3, cooldown_until := 0, total_calls := 0 } 0 0 hs
    (by norm_num) (by norm_num)).2 (by decide) (by decide)⟩
